import Mathlib

/-!
Shallow embedding of the question cache / storage / progress layer of the
freeappractice backend, together with theorems settling the specification
claims about it.

Source files embedded here:
- services/aiService.js        : selectModelForClass, generateAPQuestion
- services/questionCache.js    : generateAndStoreQuestion, refreshQuestionBackground,
                                 getCachedQuestion (the second document concatenated
                                 into services/s3Service.js in this snapshot)
- services/questionStorageService.js : getQuestionFromS3 (saveQuestionToS3 is called
                                 by aiService.js but its body is absent from the
                                 sources; it is modelled from the spec below)
- routes/api/auth.js           : POST /record-attempt progress update
- models/User.js               : progressSchema counters, Question schema

Conventions of the embedding:
- Machine integers are Nat; JavaScript Math.round on the non-negative rational
  100*c/t is the exact round-half-up, (200*c + t) / (2*t) in Nat division.
- External I/O outcomes (the OpenAI generation call, the S3 put) are explicit
  parameters of the embedded functions: a call is a deterministic state
  transformer once the outcomes of its external calls are fixed.
- MongoDB ObjectId strings (24 hex characters) and crypto.randomUUID strings
  (36 characters with dashes) are disjoint sets of strings; question ids are
  therefore embedded as a sum of two Nat-indexed constructors.
- The interleaving semantics of Section 5 of the spec (atomic steps between
  I/O suspension points) is embedded as a small-step system further below.
-/

namespace FreeAP

/-! ## String utilities mirroring the JavaScript used by the source -/

/-- Does the second list occur as a prefix of the first? Helper for substring
containment, mirroring JavaScript substring search. -/
def startsWithList : List Char → List Char → Bool
  | _, [] => true
  | [], _ :: _ => false
  | a :: hs, b :: ns => if a = b then startsWithList hs ns else false

/-- Does the second list occur contiguously inside the first? -/
def containsList : List Char → List Char → Bool
  | hay, needle =>
    if startsWithList hay needle then true
    else match hay with
      | [] => false
      | _ :: hs => containsList hs needle

/-- JavaScript String.prototype.toLowerCase restricted to ASCII, which covers
every class name and keyword appearing in the source. -/
def jsToLower (s : String) : String := String.mk (s.data.map Char.toLower)

/-- JavaScript String.prototype.includes. -/
def strIncludes (hay needle : String) : Bool := containsList hay.data needle.data

/-! ## aiService.js : selectModelForClass -/

/-- The historyKeywords array of selectModelForClass (aiService.js line 71). -/
def historyKeywords : List String :=
  ["history", "government", "economics", "psychology", "sociology",
   "human geography", "world studies"]

/-- The englishKeywords array of selectModelForClass (aiService.js line 72). -/
def englishKeywords : List String :=
  ["english", "literature"]

/-- The matchesKeyword closure of selectModelForClass (aiService.js line 73):
some keyword, lowercased, occurs in the normalized class name. -/
def matchesKeyword (normalizedClass : String) (keywords : List String) : Bool :=
  keywords.any (fun keyword => strIncludes normalizedClass (jsToLower keyword))

/-- aiService.js lines 69-83: choose the generation model from the class name.
Humanities/social-science keyword matches (plus the explicit economics and
computer science principles checks) select gpt-4.1-mini, everything else
selects gpt-5-mini. -/
def selectModelForClass (className : String) : String :=
  let normalizedClass := jsToLower className
  if matchesKeyword normalizedClass historyKeywords
      || matchesKeyword normalizedClass englishKeywords
      || strIncludes normalizedClass "economics"
      || strIncludes normalizedClass "computer science principles"
  then "gpt-4.1-mini"
  else "gpt-5-mini"

/-- The humanities/social-science classifier the spec describes in Section 4.2:
a subject matches one of the source's own humanities keyword lists
(historyKeywords for social sciences, englishKeywords for humanities). Used to
compare the spec's characterization of profile selection with the code. -/
def humanitiesSocialScience (className : String) : Bool :=
  matchesKeyword (jsToLower className) historyKeywords
    || matchesKeyword (jsToLower className) englishKeywords

/-! ## routes/api/auth.js : POST /record-attempt progress arithmetic -/

/-- One element of the progress array of models/User.js (progressSchema):
per (apClass, unit) counters and the derived mastery percentage. -/
structure ProgressEntry where
  apClass : String
  unit : String
  completed : Bool
  mastery : Nat
  totalAttempts : Nat
  correctAttempts : Nat
  deriving DecidableEq, Repr

/-- JavaScript Math.round((c / t) * 100) for the exact non-negative rational:
round half up, as Nat division. For t = 0 this is 0 (the route never computes
it with t = 0: totalAttempts is incremented first). -/
def roundPct (c t : Nat) : Nat := (200 * c + t) / (2 * t)

/-- The fresh progress entry pushed by the route when no entry for the
(apClass, unit) key exists (auth.js lines 318-327). -/
def freshEntry (apClass unit : String) : ProgressEntry :=
  { apClass := apClass, unit := unit, completed := false,
    mastery := 0, totalAttempts := 0, correctAttempts := 0 }

/-- auth.js lines 330-334: increment totalAttempts, increment correctAttempts
when the answer was correct, recompute mastery from the counters. -/
def updateEntry (e : ProgressEntry) (wasCorrect : Bool) : ProgressEntry :=
  let total := e.totalAttempts + 1
  let correct := e.correctAttempts + (if wasCorrect then 1 else 0)
  { e with totalAttempts := total, correctAttempts := correct,
           mastery := roundPct correct total }

/-- auth.js lines 314-337 under mongoose semantics: find the progress entry
for the key and apply the attempt. When an entry exists, Array.prototype.find
returns the live subdocument, so the increments mutate it in place and are
saved. When no entry exists, the route pushes a plain zeroed object into the
progress DocumentArray; mongoose casts the pushed object into a new
subdocument, so the route's subsequent increments mutate the detached local
object, not the stored subdocument — the zeroed fresh entry is what persists,
while the response reports the detached updated object. Returns the persisted
progress array together with the entry whose mastery and totalAttempts the
route reports back. -/
def applyAttempt : List ProgressEntry → String → String → Bool →
    List ProgressEntry × ProgressEntry
  | [], apClass, unit, wasCorrect =>
    ([freshEntry apClass unit], updateEntry (freshEntry apClass unit) wasCorrect)
  | p :: ps, apClass, unit, wasCorrect =>
    if p.apClass == apClass && p.unit == unit then
      let e := updateEntry p wasCorrect
      (e :: ps, e)
    else
      let r := applyAttempt ps apClass unit wasCorrect
      (p :: r.1, r.2)

/-- The progress lookup the route performs (auth.js lines 314-316). -/
def findProgress : List ProgressEntry → String → String → Option ProgressEntry
  | [], _, _ => none
  | p :: ps, apClass, unit =>
    if p.apClass == apClass && p.unit == unit then some p
    else findProgress ps apClass unit

/-- Masteries reported by successive record-attempt calls for one key,
starting from the given progress array. -/
def masteryTrace (l : List ProgressEntry) (apClass unit : String) :
    List Bool → List Nat
  | [] => []
  | w :: ws =>
    let r := applyAttempt l apClass unit w
    r.2.mastery :: masteryTrace r.1 apClass unit ws

/-- Counter sanity for a progress array: correct never exceeds total. -/
def ProgOk (l : List ProgressEntry) : Prop :=
  ∀ e ∈ l, e.correctAttempts ≤ e.totalAttempts

/-! ## Data model of the question layer -/

/-- The correctAnswer enum of the structured output schema (aiService.js) and
of the Question mongoose schema. -/
inductive Letter
  | A
  | B
  | C
  | D
  deriving DecidableEq, Repr

/-- The structured question object produced by the generation call
(the APQuestion zod schema, aiService.js lines 91-99). -/
structure ParsedQuestion where
  question : String
  optionA : String
  optionB : String
  optionC : String
  optionD : String
  correctAnswer : Letter
  explanation : String
  deriving DecidableEq, Repr

/-- A question id string. MongoDB ObjectId strings (24 hex characters, the
_id of a Question document) and crypto.randomUUID strings (36 characters with
dashes, the S3 object keys of questionStorageService.js) are disjoint sets of
strings, embedded as two Nat-indexed constructors. -/
inductive QuestionId
  | mongoId (n : Nat)
  | s3Id (n : Nat)
  deriving DecidableEq, Repr

/-- The object saveQuestionToS3 persists: the spread of the parsed question
plus apClass and unit (aiService.js lines 200-204). -/
structure StoredQuestion where
  payload : ParsedQuestion
  apClass : String
  unit : String
  deriving DecidableEq, Repr

/-- A document of the Question mongoose collection (the cache entry keyed by
(apClass, unit)), with the schema's flat question fields. -/
structure QuestionDoc where
  docId : Nat
  apClass : String
  unit : String
  question : String
  optionA : String
  optionB : String
  optionC : String
  optionD : String
  correctAnswer : Letter
  explanation : String
  deriving DecidableEq, Repr

/-- The question fields of a cache document, as a ParsedQuestion. -/
def docFields (d : QuestionDoc) : ParsedQuestion :=
  { question := d.question, optionA := d.optionA, optionB := d.optionB,
    optionC := d.optionC, optionD := d.optionD,
    correctAnswer := d.correctAnswer, explanation := d.explanation }

/-- Build the cache document written for a key from a parsed question
(the update document of Question.findOneAndUpdate, questionCache lines
119-133). -/
def mkDoc (docId : Nat) (apClass unit : String) (q : ParsedQuestion) :
    QuestionDoc :=
  { docId := docId, apClass := apClass, unit := unit,
    question := q.question, optionA := q.optionA, optionB := q.optionB,
    optionC := q.optionC, optionD := q.optionD,
    correctAnswer := q.correctAnswer, explanation := q.explanation }

/-- The durable state both services touch: the S3 bucket (objects under
questions/{uuid}.json) and the Question collection of MongoDB, with fresh-id
counters for crypto.randomUUID and ObjectId generation. -/
structure Stores where
  s3 : List (QuestionId × StoredQuestion)
  nextUuid : Nat
  questions : List QuestionDoc
  nextDocId : Nat
  deriving DecidableEq, Repr

/-- The state before anything was generated. -/
def emptyStores : Stores :=
  { s3 := [], nextUuid := 0, questions := [], nextDocId := 0 }

/-- Retrieval of the S3 object stored under a question id key (first match in
the bucket list). -/
def lookupS3 : List (QuestionId × StoredQuestion) → QuestionId →
    Option StoredQuestion
  | [], _ => none
  | kb :: rest, qid => if kb.1 == qid then some kb.2 else lookupS3 rest qid

/-- Errors surfaced by the embedded service calls. -/
inductive ServiceError
  | missingClassName
  | generationFailed
  | questionNotFoundInS3
  deriving DecidableEq, Repr

/-! ## questionStorageService.js -/

/-- Modelled from the spec: saveQuestionToS3 is called by aiService.js and
documented in questionStorageService.js, but its body is absent from the
sources. Per spec Sections 4.1 and 6 it writes the full question record under
a caller-supplied fresh unique id (crypto.randomUUID, generateQuestionId) at
the stable path questions/{id}.json and returns the id. -/
def saveQuestionToS3 (q : StoredQuestion) (st : Stores) : QuestionId × Stores :=
  let qid := QuestionId.s3Id st.nextUuid
  (qid, { st with s3 := st.s3 ++ [(qid, q)], nextUuid := st.nextUuid + 1 })

/-- questionStorageService.js lines 23-41: fetch questions/{questionId}.json
from S3 and parse it; any failure surfaces as the error
"Question not found in S3". -/
def getQuestionFromS3 (questionId : QuestionId) (st : Stores) :
    Except ServiceError StoredQuestion :=
  match lookupS3 st.s3 questionId with
  | some q => Except.ok q
  | none => Except.error ServiceError.questionNotFoundInS3

/-! ## aiService.js : generateAPQuestion -/

/-- The result object of generateAPQuestion: the parsed question, provider and
model tags, and the S3 question id when the auto-save succeeded (aiService.js
lines 199-210). -/
structure AiResult where
  answer : ParsedQuestion
  provider : String
  model : String
  questionId : Option QuestionId
  deriving DecidableEq, Repr

/-- The unit string stored with the blob: unit or the General fallback
(aiService.js line 203). -/
def unitOrGeneral (unit : String) : String :=
  if unit = "" then "General" else unit

/-- aiService.js lines 101-214. The two external outcomes are explicit:
genResult is the structured-generation outcome (none for provider error,
refusal, or missing parse — all thrown as an error), s3PutOk the outcome of
the S3 auto-save. A failed auto-save is caught, logged, and the question is
returned without a questionId; the state is unchanged in that case. -/
def generateAPQuestion (className unit : String)
    (genResult : Option ParsedQuestion) (s3PutOk : Bool) (st : Stores) :
    Except ServiceError AiResult × Stores :=
  if className = "" then (Except.error ServiceError.missingClassName, st)
  else
    match genResult with
    | none => (Except.error ServiceError.generationFailed, st)
    | some q =>
      if s3PutOk then
        let r := saveQuestionToS3
          { payload := q, apClass := className, unit := unitOrGeneral unit } st
        (Except.ok { answer := q, provider := "openai",
                     model := selectModelForClass className,
                     questionId := some r.1 }, r.2)
      else
        (Except.ok { answer := q, provider := "openai",
                     model := selectModelForClass className,
                     questionId := none }, st)

/-! ## questionCache : generateAndStoreQuestion and getCachedQuestion -/

/-- The result object of generateAndStoreQuestion and getCachedQuestion:
question data, provider/model tags, the cached flag, and the _id of the
Question cache document. -/
structure CacheResult where
  answer : ParsedQuestion
  provider : String
  model : String
  cached : Bool
  questionId : QuestionId
  deriving DecidableEq, Repr

/-- Result of the Question.findOneAndUpdate upsert on the raw document list:
the updated list, the written document, and whether a new document was
inserted. -/
structure UpsertResult where
  docs : List QuestionDoc
  doc : QuestionDoc
  inserted : Bool
  deriving DecidableEq, Repr

/-- Question.findOneAndUpdate({apClass, unit}, fields, {upsert, new}) on the
document list: replace the fields of the first document with the key, or
append a fresh document when none matches. -/
def upsertDocList (apClass unit : String) (q : ParsedQuestion) (fresh : Nat) :
    List QuestionDoc → UpsertResult
  | [] =>
    let d := mkDoc fresh apClass unit q
    { docs := [d], doc := d, inserted := true }
  | d :: ds =>
    if d.apClass == apClass && d.unit == unit then
      let d2 := mkDoc d.docId apClass unit q
      { docs := d2 :: ds, doc := d2, inserted := false }
    else
      let r := upsertDocList apClass unit q fresh ds
      { docs := d :: r.docs, doc := r.doc, inserted := r.inserted }

/-- The upsert as a state transformer on the stores, consuming a fresh
ObjectId when it inserts. -/
def upsertQuestionDoc (apClass unit : String) (q : ParsedQuestion)
    (st : Stores) : QuestionDoc × Stores :=
  let r := upsertDocList apClass unit q st.nextDocId st.questions
  (r.doc,
   { st with questions := r.docs,
             nextDocId := if r.inserted then st.nextDocId + 1 else st.nextDocId })

/-- Question.findOne({apClass, unit}) (questionCache line 181): first
document matching the key. -/
def findCachedDoc : String → String → List QuestionDoc → Option QuestionDoc
  | _, _, [] => none
  | apClass, unit, d :: ds =>
    if d.apClass == apClass && d.unit == unit then some d
    else findCachedDoc apClass unit ds

/-- questionCache lines 99-146: generate via aiService, then upsert the cache
document for the key; any error from generation propagates (after logging);
the returned questionId is the _id of the cache document. The provider
argument is forwarded and behaviourally inert (aiService always uses openai). -/
def generateAndStoreQuestion (className unit provider : String)
    (genResult : Option ParsedQuestion) (s3PutOk : Bool) (st : Stores) :
    Except ServiceError CacheResult × Stores :=
  let _ := provider
  match generateAPQuestion className unit genResult s3PutOk st with
  | (Except.error e, st1) => (Except.error e, st1)
  | (Except.ok r, st1) =>
    let u := upsertQuestionDoc className unit r.answer st1
    (Except.ok { answer := r.answer, provider := r.provider, model := r.model,
                 cached := false, questionId := QuestionId.mongoId u.1.docId },
     u.2)

/-- questionCache lines 176-219: serve the cached document for the key when it
exists (scheduling a background refresh of the key via setImmediate, returned
here as the list of scheduled keys) and otherwise fall through to synchronous
generate-and-store. On a hit the stores are untouched. -/
def getCachedQuestion (className unit provider : String)
    (genResult : Option ParsedQuestion) (s3PutOk : Bool) (st : Stores) :
    (Except ServiceError CacheResult) × Stores × List (String × String) :=
  match findCachedDoc className unit st.questions with
  | some d =>
    (Except.ok { answer := docFields d, provider := "cache", model := "cached",
                 cached := true, questionId := QuestionId.mongoId d.docId },
     st, [(className, unit)])
  | none =>
    let r := generateAndStoreQuestion className unit provider genResult s3PutOk st
    (r.1, r.2, [])

/-! ## Small-step interleaving model

Spec Section 5: single-process cooperative scheduling whose suspension points
are exactly the I/O calls (generation, S3 put, cache write); between
suspension points steps are atomic. Every generate-and-store invocation —
whether the synchronous cold-miss fill or a background refresh scheduled by a
cache hit — runs the same pipeline generation, S3 auto-save, cache upsert,
with a suspension before each stage. A task whose generation fails disappears
without touching the stores (the cold-miss caller sees the error, the
background catch swallows it); a task whose S3 save fails continues to the
cache write without having written a blob (aiService.js lines 207-210). -/

/-- Pipeline position of one in-flight generate-and-store invocation. -/
inductive TaskPhase
  | started
  | generated (q : ParsedQuestion)
  | saved (q : ParsedQuestion) (blobId : Option Nat)
  deriving DecidableEq, Repr

/-- One in-flight generate-and-store invocation for a key. -/
structure RefreshTask where
  apClass : String
  unit : String
  phase : TaskPhase
  deriving DecidableEq, Repr

/-- Whole-system state: durable stores, in-flight tasks, and the log of all
successfully generated questions (history variable used to state that cache
entries are complete generated questions). -/
structure SysState where
  stores : Stores
  tasks : List RefreshTask
  genLog : List (String × String × ParsedQuestion)
  deriving DecidableEq, Repr

/-- The initial system state: empty stores, nothing in flight. -/
def initState : SysState :=
  { stores := emptyStores, tasks := [], genLog := [] }

/-- Atomic steps of the system. fetchHit and fetchMiss are the cache-read
step of getCachedQuestion (serving the entry and scheduling the pipeline, or
entering it synchronously); taskGen, taskSave and taskWrite resume task i at
its next suspension point, with the outcome of the external call as an
explicit parameter. -/
inductive Act
  | fetchHit (apClass unit : String)
  | fetchMiss (apClass unit : String)
  | taskGen (i : Nat) (res : Option ParsedQuestion)
  | taskSave (i : Nat) (ok : Bool)
  | taskWrite (i : Nat)
  deriving DecidableEq, Repr

/-- One atomic step; none when the action's precondition fails (wrong phase,
no such task, hit on an absent key, miss on a populated key). -/
def applyAct : Act → SysState → Option SysState
  | Act.fetchHit apClass unit, s =>
    match findCachedDoc apClass unit s.stores.questions with
    | some _ =>
      some { s with tasks :=
        s.tasks ++ [{ apClass := apClass, unit := unit, phase := TaskPhase.started }] }
    | none => none
  | Act.fetchMiss apClass unit, s =>
    match findCachedDoc apClass unit s.stores.questions with
    | some _ => none
    | none =>
      some { s with tasks :=
        s.tasks ++ [{ apClass := apClass, unit := unit, phase := TaskPhase.started }] }
  | Act.taskGen i res, s =>
    match s.tasks[i]? with
    | some t =>
      match t.phase with
      | TaskPhase.started =>
        match res with
        | none => some { s with tasks := s.tasks.eraseIdx i }
        | some q =>
          some { s with
            tasks := s.tasks.set i { t with phase := TaskPhase.generated q },
            genLog := s.genLog ++ [(t.apClass, t.unit, q)] }
      | _ => none
    | none => none
  | Act.taskSave i ok, s =>
    match s.tasks[i]? with
    | some t =>
      match t.phase with
      | TaskPhase.generated q =>
        if ok then
          let n := s.stores.nextUuid
          some { s with
            stores := { s.stores with
              s3 := s.stores.s3 ++
                [(QuestionId.s3Id n,
                  { payload := q, apClass := t.apClass,
                    unit := unitOrGeneral t.unit })],
              nextUuid := n + 1 },
            tasks := s.tasks.set i { t with phase := TaskPhase.saved q (some n) } }
        else
          some { s with
            tasks := s.tasks.set i { t with phase := TaskPhase.saved q none } }
      | _ => none
    | none => none
  | Act.taskWrite i, s =>
    match s.tasks[i]? with
    | some t =>
      match t.phase with
      | TaskPhase.saved q _ =>
        let r := upsertDocList t.apClass t.unit q s.stores.nextDocId
          s.stores.questions
        some { s with
          stores := { s.stores with
            questions := r.docs,
            nextDocId := if r.inserted then s.stores.nextDocId + 1
                         else s.stores.nextDocId },
          tasks := s.tasks.eraseIdx i }
      | _ => none
    | none => none

/-- Run a list of actions from a state; none as soon as a precondition fails. -/
def runActs : List Act → SysState → Option SysState
  | [], s => some s
  | a :: acts, s =>
    match applyAct a s with
    | some s1 => runActs acts s1
    | none => none

/-- A state the system can reach from the initial state. -/
def Reachable (s : SysState) : Prop :=
  ∃ acts, runActs acts initState = some s

/-! ## Invariants of the reachable states -/

/-- Two cache documents with different (apClass, unit) keys. -/
def DistinctKey (d1 d2 : QuestionDoc) : Prop :=
  ¬(d1.apClass = d2.apClass ∧ d1.unit = d2.unit)

/-- At most one cache document per (apClass, unit) key. -/
def KeysDistinct (l : List QuestionDoc) : Prop :=
  List.Pairwise DistinctKey l

/-- The inductive invariant of the system: cache keys are unique, every cache
document is one complete logged generated question, a task that saved its blob
successfully can already read it back from S3, S3 keys are uuid keys below the
allocation counter, and the question a task carries was logged when it was
generated. -/
structure SysInv (s : SysState) : Prop where
  keysDistinct : KeysDistinct s.stores.questions
  docsLogged : ∀ d ∈ s.stores.questions,
    (d.apClass, d.unit, docFields d) ∈ s.genLog
  savedBlobs : ∀ t ∈ s.tasks, ∀ q n, t.phase = TaskPhase.saved q (some n) →
    lookupS3 s.stores.s3 (QuestionId.s3Id n) =
      some { payload := q, apClass := t.apClass, unit := unitOrGeneral t.unit }
  s3Bounded : ∀ kb ∈ s.stores.s3,
    ∃ n, kb.1 = QuestionId.s3Id n ∧ n < s.stores.nextUuid
  tasksLogged : ∀ t ∈ s.tasks, ∀ q,
    (t.phase = TaskPhase.generated q ∨ ∃ b, t.phase = TaskPhase.saved q b) →
    (t.apClass, t.unit, q) ∈ s.genLog

theorem lookupS3_append_of_found (l l2 : List (QuestionId × StoredQuestion))
    (k : QuestionId) (b : StoredQuestion) (h : lookupS3 l k = some b) :
    lookupS3 (l ++ l2) k = some b := by
  induction l with
  | nil => simp [lookupS3] at h
  | cons kb rest ih =>
    by_cases h1 : kb.1 == k
    · simp [lookupS3, h1] at h ⊢
      exact h
    · simp [lookupS3, h1] at h ⊢
      exact ih h

theorem lookupS3_append_fresh (l : List (QuestionId × StoredQuestion))
    (k : QuestionId) (b : StoredQuestion) (h : ∀ kb ∈ l, kb.1 ≠ k) :
    lookupS3 (l ++ [(k, b)]) k = some b := by
  induction l with
  | nil => simp [lookupS3]
  | cons kb rest ih =>
    have hne : kb.1 ≠ k := h kb (List.mem_cons_self kb rest)
    have hb : (kb.1 == k) = false := by
      simpa using hne
    simp [lookupS3, hb]
    exact ih (fun x hx => h x (List.mem_cons_of_mem kb hx))

theorem lookupS3_eq_none (l : List (QuestionId × StoredQuestion))
    (k : QuestionId) (h : ∀ kb ∈ l, kb.1 ≠ k) : lookupS3 l k = none := by
  induction l with
  | nil => rfl
  | cons kb rest ih =>
    have hne : kb.1 ≠ k := h kb (List.mem_cons_self kb rest)
    have hb : (kb.1 == k) = false := by
      simpa using hne
    simp [lookupS3, hb]
    exact ih (fun x hx => h x (List.mem_cons_of_mem kb hx))

theorem docFields_mkDoc (docId : Nat) (apClass unit : String)
    (q : ParsedQuestion) : docFields (mkDoc docId apClass unit q) = q := rfl

theorem mem_upsertDocList (apClass unit : String) (q : ParsedQuestion)
    (fresh : Nat) (l : List QuestionDoc) (x : QuestionDoc)
    (hx : x ∈ (upsertDocList apClass unit q fresh l).docs) :
    x ∈ l ∨ (x.apClass = apClass ∧ x.unit = unit ∧ docFields x = q) := by
  induction l with
  | nil =>
    simp [upsertDocList] at hx
    subst hx
    exact Or.inr ⟨rfl, rfl, rfl⟩
  | cons d ds ih =>
    by_cases hc : (d.apClass == apClass && d.unit == unit) = true
    · simp [upsertDocList, hc] at hx
      rcases hx with hx | hx
      · subst hx
        exact Or.inr ⟨rfl, rfl, rfl⟩
      · exact Or.inl (List.mem_cons_of_mem d hx)
    · simp only [upsertDocList, hc, Bool.false_eq_true, if_false,
        List.mem_cons] at hx
      rcases hx with hx | hx
      · exact Or.inl (hx ▸ List.mem_cons_self d ds)
      · rcases ih hx with h1 | h1
        · exact Or.inl (List.mem_cons_of_mem d h1)
        · exact Or.inr h1

theorem keysDistinct_upsertDocList (apClass unit : String) (q : ParsedQuestion)
    (fresh : Nat) (l : List QuestionDoc) (hl : KeysDistinct l) :
    KeysDistinct (upsertDocList apClass unit q fresh l).docs := by
  induction l with
  | nil =>
    simp [upsertDocList, KeysDistinct]
  | cons d ds ih =>
    rw [KeysDistinct, List.pairwise_cons] at hl
    obtain ⟨hd, hds⟩ := hl
    by_cases hc : (d.apClass == apClass && d.unit == unit) = true
    · have hkey : d.apClass = apClass ∧ d.unit = unit := by
        simpa using hc
      rw [KeysDistinct]
      simp only [upsertDocList, hc, if_true]
      rw [List.pairwise_cons]
      refine ⟨fun x hx => ?_, hds⟩
      have := hd x hx
      simp only [DistinctKey, mkDoc] at this ⊢
      rw [hkey.1, hkey.2] at this
      exact this
    · rw [KeysDistinct]
      simp only [upsertDocList, hc, Bool.false_eq_true, if_false]
      rw [List.pairwise_cons]
      have hknot : ¬(d.apClass = apClass ∧ d.unit = unit) := by
        intro hand
        apply hc
        simp [hand.1, hand.2]
      refine ⟨fun x hx => ?_, ih hds⟩
      rcases mem_upsertDocList apClass unit q fresh ds x hx with h1 | h1
      · exact hd x h1
      · simp only [DistinctKey]
        rw [h1.1, h1.2.1]
        exact hknot

theorem initState_inv : SysInv initState := by
  constructor <;> simp [initState, emptyStores, KeysDistinct]

theorem memOfIdx {α : Type} (l : List α) (i : Nat) (a : α)
    (h : l[i]? = some a) : a ∈ l := by
  obtain ⟨hlt, rfl⟩ := List.getElem?_eq_some.mp h
  exact List.getElem_mem hlt

theorem applyAct_inv (a : Act) (s s' : SysState) (hs : SysInv s)
    (h : applyAct a s = some s') : SysInv s' := by
  cases a with
  | fetchHit apClass unit =>
    simp only [applyAct] at h
    cases hfind : findCachedDoc apClass unit s.stores.questions with
    | none => simp [hfind] at h
    | some d =>
      simp only [hfind, Option.some.injEq] at h
      subst h
      refine ⟨hs.keysDistinct, hs.docsLogged, ?_, hs.s3Bounded, ?_⟩
      · intro t ht q n hph
        rcases List.mem_append.mp ht with h1 | h1
        · exact hs.savedBlobs t h1 q n hph
        · simp at h1
          subst h1
          simp at hph
      · intro t ht q hph
        rcases List.mem_append.mp ht with h1 | h1
        · exact hs.tasksLogged t h1 q hph
        · simp at h1
          subst h1
          rcases hph with h2 | ⟨b, h2⟩ <;> simp at h2
  | fetchMiss apClass unit =>
    simp only [applyAct] at h
    cases hfind : findCachedDoc apClass unit s.stores.questions with
    | some d => simp [hfind] at h
    | none =>
      simp only [hfind, Option.some.injEq] at h
      subst h
      refine ⟨hs.keysDistinct, hs.docsLogged, ?_, hs.s3Bounded, ?_⟩
      · intro t ht q n hph
        rcases List.mem_append.mp ht with h1 | h1
        · exact hs.savedBlobs t h1 q n hph
        · simp at h1
          subst h1
          simp at hph
      · intro t ht q hph
        rcases List.mem_append.mp ht with h1 | h1
        · exact hs.tasksLogged t h1 q hph
        · simp at h1
          subst h1
          rcases hph with h2 | ⟨b, h2⟩ <;> simp at h2
  | taskGen i res =>
    simp only [applyAct] at h
    cases hget : s.tasks[i]? with
    | none => simp [hget] at h
    | some t =>
      have htmem : t ∈ s.tasks := memOfIdx s.tasks i t hget
      cases hph : t.phase with
      | started =>
        cases res with
        | none =>
          simp only [hget, hph, Option.some.injEq] at h
          subst h
          have hsub := (List.eraseIdx_sublist s.tasks i).subset
          exact ⟨hs.keysDistinct, hs.docsLogged,
            fun t' ht' q n hph' => hs.savedBlobs t' (hsub ht') q n hph',
            hs.s3Bounded,
            fun t' ht' q hph' => hs.tasksLogged t' (hsub ht') q hph'⟩
        | some q =>
          simp only [hget, hph, Option.some.injEq] at h
          subst h
          refine ⟨hs.keysDistinct, ?_, ?_, hs.s3Bounded, ?_⟩
          · intro d hd
            exact List.mem_append_left _ (hs.docsLogged d hd)
          · intro t' ht' q' n hph'
            rcases List.mem_or_eq_of_mem_set ht' with h1 | h1
            · exact hs.savedBlobs t' h1 q' n hph'
            · subst h1
              simp at hph'
          · intro t' ht' q' hph'
            rcases List.mem_or_eq_of_mem_set ht' with h1 | h1
            · exact List.mem_append_left _ (hs.tasksLogged t' h1 q' hph')
            · subst h1
              have hq : q' = q := by
                rcases hph' with h2 | ⟨b, h2⟩
                · simpa using h2.symm
                · simp at h2
              subst hq
              exact List.mem_append_right _ (by simp)
      | generated q => simp [hget, hph] at h
      | saved q b => simp [hget, hph] at h
  | taskSave i ok =>
    simp only [applyAct] at h
    cases hget : s.tasks[i]? with
    | none => simp [hget] at h
    | some t =>
      have htmem : t ∈ s.tasks := memOfIdx s.tasks i t hget
      cases hph : t.phase with
      | started => simp [hget, hph] at h
      | saved q b => simp [hget, hph] at h
      | generated q =>
        cases ok with
        | true =>
          simp only [hget, hph, if_true, Option.some.injEq] at h
          subst h
          refine ⟨hs.keysDistinct, hs.docsLogged, ?_, ?_, ?_⟩
          · intro t' ht' q' n' hph'
            rcases List.mem_or_eq_of_mem_set ht' with h1 | h1
            · exact lookupS3_append_of_found _ _ _ _
                (hs.savedBlobs t' h1 q' n' hph')
            · subst h1
              simp only [TaskPhase.saved.injEq, Option.some.injEq] at hph'
              obtain ⟨hq, hn⟩ := hph'
              subst hq
              subst hn
              apply lookupS3_append_fresh
              intro kb hkb
              obtain ⟨m, hm, hlt⟩ := hs.s3Bounded kb hkb
              rw [hm]
              intro heq
              have : m = s.stores.nextUuid := by
                simpa using heq
              omega
          · intro kb hkb
            rcases List.mem_append.mp hkb with h1 | h1
            · obtain ⟨m, hm, hlt⟩ := hs.s3Bounded kb h1
              exact ⟨m, hm, Nat.lt_succ_of_lt hlt⟩
            · simp at h1
              subst h1
              exact ⟨s.stores.nextUuid, rfl, Nat.lt_succ_self _⟩
          · intro t' ht' q' hph'
            rcases List.mem_or_eq_of_mem_set ht' with h1 | h1
            · exact hs.tasksLogged t' h1 q' hph'
            · subst h1
              have hq : q' = q := by
                rcases hph' with h2 | ⟨c, h2⟩
                · simp at h2
                · simp only [TaskPhase.saved.injEq] at h2
                  exact h2.1.symm
              rw [hq]
              exact hs.tasksLogged t htmem q (Or.inl hph)
        | false =>
          simp only [hget, hph, Bool.false_eq_true, if_false,
            Option.some.injEq] at h
          subst h
          refine ⟨hs.keysDistinct, hs.docsLogged, ?_, hs.s3Bounded, ?_⟩
          · intro t' ht' q' n' hph'
            rcases List.mem_or_eq_of_mem_set ht' with h1 | h1
            · exact hs.savedBlobs t' h1 q' n' hph'
            · subst h1
              simp at hph'
          · intro t' ht' q' hph'
            rcases List.mem_or_eq_of_mem_set ht' with h1 | h1
            · exact hs.tasksLogged t' h1 q' hph'
            · subst h1
              have hq : q' = q := by
                rcases hph' with h2 | ⟨c, h2⟩
                · simp at h2
                · simp only [TaskPhase.saved.injEq] at h2
                  exact h2.1.symm
              rw [hq]
              exact hs.tasksLogged t htmem q (Or.inl hph)
  | taskWrite i =>
    simp only [applyAct] at h
    cases hget : s.tasks[i]? with
    | none => simp [hget] at h
    | some t =>
      have htmem : t ∈ s.tasks := memOfIdx s.tasks i t hget
      cases hph : t.phase with
      | started => simp [hget, hph] at h
      | generated q => simp [hget, hph] at h
      | saved q b =>
        simp only [hget, hph, Option.some.injEq] at h
        subst h
        have hsub := (List.eraseIdx_sublist s.tasks i).subset
        refine ⟨?_, ?_, ?_, hs.s3Bounded, ?_⟩
        · exact keysDistinct_upsertDocList _ _ _ _ _ hs.keysDistinct
        · intro d hd
          rcases mem_upsertDocList _ _ _ _ _ d hd with h1 | h1
          · exact hs.docsLogged d h1
          · obtain ⟨ha, hu, hf⟩ := h1
            rw [ha, hu, hf]
            exact hs.tasksLogged t htmem q (Or.inr ⟨b, hph⟩)
        · intro t' ht' q' n' hph'
          exact hs.savedBlobs t' (hsub ht') q' n' hph'
        · intro t' ht' q' hph'
          exact hs.tasksLogged t' (hsub ht') q' hph'

theorem runActs_inv (acts : List Act) (s s' : SysState) (hs : SysInv s)
    (h : runActs acts s = some s') : SysInv s' := by
  induction acts generalizing s with
  | nil =>
    simp [runActs] at h
    subst h
    exact hs
  | cons a acts ih =>
    simp only [runActs] at h
    cases happ : applyAct a s with
    | none => simp [happ] at h
    | some s1 =>
      rw [happ] at h
      exact ih s1 (applyAct_inv a s s1 hs happ) h

theorem reachable_inv (s : SysState) (h : Reachable s) : SysInv s := by
  obtain ⟨acts, hrun⟩ := h
  exact runActs_inv acts initState s initState_inv hrun

/-! ## Supporting lemmas for the progress ledger -/

theorem applyAttempt_snd (l : List ProgressEntry) (apClass unit : String)
    (w : Bool) :
    (applyAttempt l apClass unit w).2 =
      updateEntry ((findProgress l apClass unit).getD (freshEntry apClass unit)) w := by
  induction l with
  | nil => rfl
  | cons p ps ih =>
    by_cases hc : (p.apClass == apClass && p.unit == unit) = true
    · simp [applyAttempt, findProgress, hc]
    · simp [applyAttempt, findProgress, hc, ih]

theorem mem_of_findProgress (l : List ProgressEntry) (apClass unit : String)
    (e : ProgressEntry) (h : findProgress l apClass unit = some e) : e ∈ l := by
  induction l with
  | nil => simp [findProgress] at h
  | cons p ps ih =>
    by_cases hc : (p.apClass == apClass && p.unit == unit) = true
    · simp [findProgress, hc] at h
      subst h
      exact List.mem_cons_self p ps
    · simp only [findProgress, hc, Bool.false_eq_true, if_false] at h
      exact List.mem_cons_of_mem p (ih h)

theorem roundPct_le_100 (c t : Nat) (h : c ≤ t) : roundPct c t ≤ 100 := by
  cases t with
  | zero =>
    simp [roundPct]
  | succ t =>
    rw [roundPct]
    have hpos : 0 < 2 * (t + 1) := by omega
    have hlt : 200 * c + (t + 1) < 101 * (2 * (t + 1)) := by omega
    have := (Nat.div_lt_iff_lt_mul hpos).mpr hlt
    omega

theorem updateEntry_ok (e : ProgressEntry) (w : Bool)
    (h : e.correctAttempts ≤ e.totalAttempts) :
    (updateEntry e w).correctAttempts ≤ (updateEntry e w).totalAttempts ∧
    (updateEntry e w).mastery =
      roundPct (updateEntry e w).correctAttempts (updateEntry e w).totalAttempts ∧
    (updateEntry e w).mastery ≤ 100 := by
  refine ⟨?_, rfl, ?_⟩
  · simp only [updateEntry]
    cases w <;> simp <;> omega
  · apply roundPct_le_100
    cases w <;> simp [updateEntry] <;> omega

theorem progOk_applyAttempt (l : List ProgressEntry) (apClass unit : String)
    (w : Bool) (hl : ProgOk l) : ProgOk (applyAttempt l apClass unit w).1 := by
  induction l with
  | nil =>
    intro e he
    simp [applyAttempt] at he
    subst he
    simp [freshEntry]
  | cons p ps ih =>
    have hp : p.correctAttempts ≤ p.totalAttempts :=
      hl p (List.mem_cons_self p ps)
    have hps : ProgOk ps := fun e he => hl e (List.mem_cons_of_mem p he)
    by_cases hc : (p.apClass == apClass && p.unit == unit) = true
    · intro e he
      simp only [applyAttempt, hc, if_true, List.mem_cons] at he
      rcases he with he | he
      · subst he
        exact (updateEntry_ok _ w hp).1
      · exact hps e he
    · intro e he
      simp only [applyAttempt, hc, Bool.false_eq_true, if_false,
        List.mem_cons] at he
      rcases he with he | he
      · subst he
        exact hp
      · exact ih hps e he

theorem findProgress_base_ok (l : List ProgressEntry) (apClass unit : String)
    (hl : ProgOk l) :
    ((findProgress l apClass unit).getD (freshEntry apClass unit)).correctAttempts ≤
      ((findProgress l apClass unit).getD (freshEntry apClass unit)).totalAttempts := by
  cases hf : findProgress l apClass unit with
  | none => simp [freshEntry]
  | some e => simpa using hl e (mem_of_findProgress l apClass unit e hf)

/-! ## Claim theorems -/

/-- C5 counterexample: selectModelForClass does not map exactly the
humanities/social-science subjects to the first profile — AP Computer Science
Principles matches none of the source's humanities/social-science keyword
lists, yet it is routed to gpt-4.1-mini. -/
theorem C5_counterexample :
    selectModelForClass "AP Computer Science Principles" = "gpt-4.1-mini" ∧
    humanitiesSocialScience "AP Computer Science Principles" = false := by
  constructor <;> decide

/-- C5 (amended): selectModelForClass is a total deterministic function of the
subject name with exactly two profiles in its range, and it selects the first
profile gpt-4.1-mini precisely for the subjects whose lowercased name matches
a humanities/social-science keyword or contains the extra non-humanities
string "computer science principles"; every other subject gets gpt-5-mini. -/
theorem C5_profile_characterization (className : String) :
    (selectModelForClass className = "gpt-4.1-mini" ↔
      (humanitiesSocialScience className = true ∨
       strIncludes (jsToLower className) "computer science principles" = true)) ∧
    (selectModelForClass className = "gpt-4.1-mini" ∨
     selectModelForClass className = "gpt-5-mini") := by
  have hecon : strIncludes (jsToLower className) "economics" = true →
      matchesKeyword (jsToLower className) historyKeywords = true := by
    intro h
    have hlow : jsToLower "economics" = "economics" := by decide
    apply List.any_eq_true.mpr
    refine ⟨"economics", by decide, ?_⟩
    rw [hlow]
    exact h
  have hsel : selectModelForClass className =
      (if (matchesKeyword (jsToLower className) historyKeywords
          || matchesKeyword (jsToLower className) englishKeywords
          || strIncludes (jsToLower className) "economics"
          || strIncludes (jsToLower className) "computer science principles")
       then "gpt-4.1-mini" else "gpt-5-mini") := rfl
  have hhum : humanitiesSocialScience className =
      (matchesKeyword (jsToLower className) historyKeywords
        || matchesKeyword (jsToLower className) englishKeywords) := rfl
  cases hcond : (matchesKeyword (jsToLower className) historyKeywords
      || matchesKeyword (jsToLower className) englishKeywords
      || strIncludes (jsToLower className) "economics"
      || strIncludes (jsToLower className) "computer science principles") with
  | false =>
    rw [hcond] at hsel
    simp only [if_false, Bool.false_eq_true] at hsel
    simp only [Bool.or_eq_false_iff] at hcond
    obtain ⟨⟨⟨hh, he⟩, hec⟩, hcs⟩ := hcond
    constructor
    · constructor
      · intro hx
        rw [hsel] at hx
        exact absurd hx (by decide)
      · intro hx
        rcases hx with hx | hx
        · rw [hhum, hh, he] at hx
          simp at hx
        · rw [hcs] at hx
          simp at hx
    · right
      exact hsel
  | true =>
    rw [hcond] at hsel
    simp only [if_true] at hsel
    constructor
    · constructor
      · intro _
        simp only [Bool.or_eq_true] at hcond
        rcases hcond with ((hh | he) | hec) | hcs
        · exact Or.inl (by rw [hhum, hh]; simp)
        · exact Or.inl (by rw [hhum, he]; simp)
        · exact Or.inl (by rw [hhum, hecon hec]; simp)
        · exact Or.inr hcs
      · intro _
        exact hsel
    · left
      exact hsel

/-- C6 (code bug): evaluating the route at the failing input. On a fresh
(user, subject, topic) key, four record-attempt calls with wasCorrect true,
false, true, true report masteries 100, 0, 50, 67 — not the 100, 50, 67, 75
the claim (and spec) require — because the first call's counter increments
happen on the detached object mongoose cast out of the DocumentArray push:
the persisted fresh entry stays zeroed (second and third conjuncts), so every
later call runs one attempt behind. -/
theorem C6_mastery_code_bug :
    masteryTrace [] "AP Biology" "Unit 1" [true, false, true, true] =
      [100, 0, 50, 67] ∧
    (applyAttempt [] "AP Biology" "Unit 1" true).1 =
      [freshEntry "AP Biology" "Unit 1"] ∧
    (applyAttempt [] "AP Biology" "Unit 1" true).2.mastery = 100 := by
  refine ⟨?_, ?_, ?_⟩ <;> rfl

/-- C10: the two counters move together — total always increments by one,
correct increments exactly when the attempt was correct — so from any sane
progress array 0 ≤ correct ≤ total is preserved for every entry and the
derived mastery is a well-defined integer in [0,100]. -/
theorem C10_counter_invariant (l : List ProgressEntry) (apClass unit : String)
    (w : Bool) (hl : ProgOk l) :
    ProgOk (applyAttempt l apClass unit w).1 ∧
    (applyAttempt l apClass unit w).2.totalAttempts =
      ((findProgress l apClass unit).getD (freshEntry apClass unit)).totalAttempts + 1 ∧
    (applyAttempt l apClass unit w).2.correctAttempts =
      ((findProgress l apClass unit).getD (freshEntry apClass unit)).correctAttempts +
        (if w then 1 else 0) ∧
    (applyAttempt l apClass unit w).2.correctAttempts ≤
      (applyAttempt l apClass unit w).2.totalAttempts ∧
    (applyAttempt l apClass unit w).2.mastery ≤ 100 := by
  have hbase := findProgress_base_ok l apClass unit hl
  refine ⟨progOk_applyAttempt l apClass unit w hl, ?_, ?_, ?_, ?_⟩
  all_goals rw [applyAttempt_snd]
  · rfl
  · rfl
  · exact (updateEntry_ok _ w hbase).1
  · exact (updateEntry_ok _ w hbase).2.2

/-- Concrete structured question used as a generation outcome in witnesses
and counterexamples. -/
def sampleQuestion : ParsedQuestion :=
  { question := "Which organelle produces most of the ATP of a eukaryotic cell?",
    optionA := "The mitochondrion",
    optionB := "The ribosome",
    optionC := "The nucleus",
    optionD := "The chloroplast",
    correctAnswer := Letter.A,
    explanation := "Oxidative phosphorylation in mitochondria yields most ATP." }

/-- S3 well-formedness: every stored object key is a uuid key already
allocated (below the fresh counter). Holds for every state the services
produce, and in particular for emptyStores. -/
def S3WF (st : Stores) : Prop :=
  ∀ kb ∈ st.s3, ∃ n, kb.1 = QuestionId.s3Id n ∧ n < st.nextUuid

/-- The upsert leaves the key findable, holding exactly the written question
fields. -/
theorem findCachedDoc_upsertDocList (apClass unit : String)
    (q : ParsedQuestion) (fresh : Nat) (l : List QuestionDoc) :
    ∃ d, findCachedDoc apClass unit (upsertDocList apClass unit q fresh l).docs =
        some d ∧ docFields d = q ∧ d.apClass = apClass ∧ d.unit = unit := by
  induction l with
  | nil =>
    refine ⟨mkDoc fresh apClass unit q, ?_, rfl, rfl, rfl⟩
    simp [upsertDocList, findCachedDoc, mkDoc]
  | cons d ds ih =>
    by_cases hc : (d.apClass == apClass && d.unit == unit) = true
    · refine ⟨mkDoc d.docId apClass unit q, ?_, rfl, rfl, rfl⟩
      simp [upsertDocList, hc, findCachedDoc, mkDoc]
    · obtain ⟨d2, hfind, hf, ha, hu⟩ := ih
      refine ⟨d2, ?_, hf, ha, hu⟩
      simp only [upsertDocList, hc, Bool.false_eq_true, if_false,
        findCachedDoc]
      exact hfind

/-- Generation success always yields an ok result carrying the generated
question, whatever the S3 auto-save outcome. -/
theorem generateAPQuestion_ok (className unit : String) (q : ParsedQuestion)
    (s3ok : Bool) (st : Stores) (hcls : className ≠ "") :
    ∃ a st1, generateAPQuestion className unit (some q) s3ok st =
      (Except.ok a, st1) ∧ a.answer = q := by
  cases s3ok with
  | true =>
    refine ⟨{ answer := q, provider := "openai",
              model := selectModelForClass className,
              questionId := some (QuestionId.s3Id st.nextUuid) },
            { st with
              s3 := st.s3 ++ [(QuestionId.s3Id st.nextUuid,
                { payload := q, apClass := className, unit := unitOrGeneral unit })],
              nextUuid := st.nextUuid + 1 }, ?_, rfl⟩
    simp [generateAPQuestion, hcls, saveQuestionToS3]
  | false =>
    refine ⟨{ answer := q, provider := "openai",
              model := selectModelForClass className,
              questionId := none }, st, ?_, rfl⟩
    simp [generateAPQuestion, hcls]

/-- C10 witness at a concrete input. -/
theorem C10_counter_invariant_witness :
    ProgOk [] ∧
    (ProgOk (applyAttempt [] "AP Chemistry" "Unit 3" false).1 ∧
    (applyAttempt [] "AP Chemistry" "Unit 3" false).2.totalAttempts =
      ((findProgress [] "AP Chemistry" "Unit 3").getD
        (freshEntry "AP Chemistry" "Unit 3")).totalAttempts + 1 ∧
    (applyAttempt [] "AP Chemistry" "Unit 3" false).2.correctAttempts =
      ((findProgress [] "AP Chemistry" "Unit 3").getD
        (freshEntry "AP Chemistry" "Unit 3")).correctAttempts +
        (if false then 1 else 0) ∧
    (applyAttempt [] "AP Chemistry" "Unit 3" false).2.correctAttempts ≤
      (applyAttempt [] "AP Chemistry" "Unit 3" false).2.totalAttempts ∧
    (applyAttempt [] "AP Chemistry" "Unit 3" false).2.mastery ≤ 100) :=
  ⟨fun e he => absurd he (List.not_mem_nil e),
   C10_counter_invariant [] "AP Chemistry" "Unit 3" false
     (fun e he => absurd he (List.not_mem_nil e))⟩

/-- C1 counterexample: a successful cold-miss fetch on the empty state
returns questionId mongoId 0 — the _id of the database cache document — and
the Blob Store get on that returned id fails, even though the auto-save to S3
succeeded (the blob lives under the unrelated fresh uuid key). -/
theorem C1_counterexample :
    (getCachedQuestion "AP Biology" "Unit 1" "openai" (some sampleQuestion)
        true emptyStores).1 =
      Except.ok { answer := sampleQuestion, provider := "openai",
                  model := "gpt-5-mini", cached := false,
                  questionId := QuestionId.mongoId 0 } ∧
    getQuestionFromS3 (QuestionId.mongoId 0)
        (getCachedQuestion "AP Biology" "Unit 1" "openai" (some sampleQuestion)
          true emptyStores).2.1 =
      Except.error ServiceError.questionNotFoundInS3 ∧
    (getCachedQuestion "AP Biology" "Unit 1" "openai" (some sampleQuestion)
        true emptyStores).2.1.s3 =
      [(QuestionId.s3Id 0,
        { payload := sampleQuestion, apClass := "AP Biology", unit := "Unit 1" })] := by
  refine ⟨?_, ?_, ?_⟩ <;> rfl

/-- C1 (amended): after a successful generate-and-store (the cold-miss fill
and the primeCache operation) whose S3 auto-save succeeded, a Blob Store get
on the fresh uuid allocated during the call returns exactly the stored
question record (the returned question plus apClass and unit); but the
questionId the call returns to its caller is the database document id, and a
Blob Store get on that returned id fails with the not-found error. -/
theorem C1_blob_roundtrip (className unit provider : String)
    (q : ParsedQuestion) (st : Stores) (hcls : className ≠ "") (hwf : S3WF st) :
    ∃ r st2,
      generateAndStoreQuestion className unit provider (some q) true st =
        (Except.ok r, st2) ∧
      r.answer = q ∧
      r.questionId = QuestionId.mongoId
        (upsertDocList className unit q st.nextDocId st.questions).doc.docId ∧
      getQuestionFromS3 (QuestionId.s3Id st.nextUuid) st2 =
        Except.ok { payload := q, apClass := className, unit := unitOrGeneral unit } ∧
      getQuestionFromS3 r.questionId st2 =
        Except.error ServiceError.questionNotFoundInS3 := by
  have hfresh : ∀ kb ∈ st.s3 ++ [(QuestionId.s3Id st.nextUuid,
      ({ payload := q, apClass := className, unit := unitOrGeneral unit } :
        StoredQuestion))],
      ∃ n, kb.1 = QuestionId.s3Id n := by
    intro kb hkb
    rcases List.mem_append.mp hkb with h1 | h1
    · obtain ⟨m, hm, _⟩ := hwf kb h1
      exact ⟨m, hm⟩
    · simp at h1
      subst h1
      exact ⟨st.nextUuid, rfl⟩
  refine ⟨{ answer := q, provider := "openai",
            model := selectModelForClass className, cached := false,
            questionId := QuestionId.mongoId
              (upsertDocList className unit q st.nextDocId st.questions).doc.docId },
          { s3 := st.s3 ++ [(QuestionId.s3Id st.nextUuid,
              { payload := q, apClass := className, unit := unitOrGeneral unit })],
            nextUuid := st.nextUuid + 1,
            questions := (upsertDocList className unit q st.nextDocId st.questions).docs,
            nextDocId := if (upsertDocList className unit q st.nextDocId st.questions).inserted
                         then st.nextDocId + 1 else st.nextDocId },
          ?_, rfl, rfl, ?_, ?_⟩
  · simp [generateAndStoreQuestion, generateAPQuestion, hcls,
      saveQuestionToS3, upsertQuestionDoc]
  · have hlook : lookupS3 (st.s3 ++ [(QuestionId.s3Id st.nextUuid,
        ({ payload := q, apClass := className, unit := unitOrGeneral unit } :
          StoredQuestion))]) (QuestionId.s3Id st.nextUuid) =
        some { payload := q, apClass := className, unit := unitOrGeneral unit } := by
      apply lookupS3_append_fresh
      intro kb hkb
      obtain ⟨m, hm, hlt⟩ := hwf kb hkb
      rw [hm]
      intro heq
      have : m = st.nextUuid := by simpa using heq
      omega
    simp [getQuestionFromS3, hlook]
  · have hlook : lookupS3 (st.s3 ++ [(QuestionId.s3Id st.nextUuid,
        ({ payload := q, apClass := className, unit := unitOrGeneral unit } :
          StoredQuestion))])
        (QuestionId.mongoId
          (upsertDocList className unit q st.nextDocId st.questions).doc.docId) =
        none := by
      apply lookupS3_eq_none
      intro kb hkb
      obtain ⟨m, hm⟩ := hfresh kb hkb
      rw [hm]
      simp
    simp [getQuestionFromS3, hlook]

/-- C1 amended witness at a concrete input. -/
theorem C1_blob_roundtrip_witness :
    ("AP Biology" : String) ≠ "" ∧ S3WF emptyStores ∧
    (∃ r st2,
      generateAndStoreQuestion "AP Biology" "Unit 1" "openai"
          (some sampleQuestion) true emptyStores = (Except.ok r, st2) ∧
      r.answer = sampleQuestion ∧
      r.questionId = QuestionId.mongoId
        (upsertDocList "AP Biology" "Unit 1" sampleQuestion
          emptyStores.nextDocId emptyStores.questions).doc.docId ∧
      getQuestionFromS3 (QuestionId.s3Id emptyStores.nextUuid) st2 =
        Except.ok { payload := sampleQuestion, apClass := "AP Biology",
                    unit := unitOrGeneral "Unit 1" } ∧
      getQuestionFromS3 r.questionId st2 =
        Except.error ServiceError.questionNotFoundInS3) :=
  ⟨by decide, fun kb hkb => absurd hkb (List.not_mem_nil kb),
   C1_blob_roundtrip "AP Biology" "Unit 1" "openai" sampleQuestion emptyStores
     (by decide) (fun kb hkb => absurd hkb (List.not_mem_nil kb))⟩

/-- C3 counterexample: a cold-miss fetch whose S3 persistence fails after
successful generation does not surface a StorageError — it returns the
question (with the database document id) and writes no blob. -/
theorem C3_counterexample :
    (getCachedQuestion "AP Biology" "Unit 1" "openai" (some sampleQuestion)
        false emptyStores).1 =
      Except.ok { answer := sampleQuestion, provider := "openai",
                  model := "gpt-5-mini", cached := false,
                  questionId := QuestionId.mongoId 0 } ∧
    (getCachedQuestion "AP Biology" "Unit 1" "openai" (some sampleQuestion)
        false emptyStores).2.1.s3 = [] := by
  refine ⟨?_, ?_⟩ <;> rfl

/-- C3 (amended): on a cold miss, a Blob Store write failure after successful
generation is caught and logged inside generateAPQuestion; the fetch still
succeeds, returning the fresh question, no blob is written, and the database
cache entry for the key is still created with the question's fields. Only a
failure of the database cache write itself would propagate. -/
theorem C3_s3_failure_swallowed (className unit provider : String)
    (q : ParsedQuestion) (st : Stores) (hcls : className ≠ "")
    (hmiss : findCachedDoc className unit st.questions = none) :
    ∃ r st2,
      getCachedQuestion className unit provider (some q) false st =
        (Except.ok r, st2, []) ∧
      r.answer = q ∧ r.cached = false ∧
      st2.s3 = st.s3 ∧ st2.nextUuid = st.nextUuid ∧
      (∃ d, findCachedDoc className unit st2.questions = some d ∧
        docFields d = q) := by
  refine ⟨{ answer := q, provider := "openai",
            model := selectModelForClass className, cached := false,
            questionId := QuestionId.mongoId
              (upsertDocList className unit q st.nextDocId st.questions).doc.docId },
          { s3 := st.s3, nextUuid := st.nextUuid,
            questions := (upsertDocList className unit q st.nextDocId st.questions).docs,
            nextDocId := if (upsertDocList className unit q st.nextDocId st.questions).inserted
                         then st.nextDocId + 1 else st.nextDocId },
          ?_, rfl, rfl, rfl, rfl, ?_⟩
  · simp [getCachedQuestion, hmiss, generateAndStoreQuestion,
      generateAPQuestion, hcls, upsertQuestionDoc]
  · obtain ⟨d, hfind, hf, _, _⟩ :=
      findCachedDoc_upsertDocList className unit q st.nextDocId st.questions
    exact ⟨d, hfind, hf⟩

/-- C3 amended witness at a concrete input. -/
theorem C3_s3_failure_swallowed_witness :
    ("AP Biology" : String) ≠ "" ∧
    findCachedDoc "AP Biology" "Unit 1" emptyStores.questions = none ∧
    (∃ r st2,
      getCachedQuestion "AP Biology" "Unit 1" "openai" (some sampleQuestion)
          false emptyStores = (Except.ok r, st2, []) ∧
      r.answer = sampleQuestion ∧ r.cached = false ∧
      st2.s3 = emptyStores.s3 ∧ st2.nextUuid = emptyStores.nextUuid ∧
      (∃ d, findCachedDoc "AP Biology" "Unit 1" st2.questions = some d ∧
        docFields d = sampleQuestion)) :=
  ⟨by decide, rfl,
   C3_s3_failure_swallowed "AP Biology" "Unit 1" "openai" sampleQuestion
     emptyStores (by decide) rfl⟩

/-- C7: on an Absent key, a fetch whose generation fails returns the
generation error and leaves the stores exactly unchanged — no cache entry is
created and nothing is scheduled — and a later fetch with the same key takes
the Absent (synchronous, cached=false) path again. -/
theorem C7_generation_failure_leaves_absent (className unit provider provider2 :
    String) (s3a s3b : Bool) (q : ParsedQuestion) (st : Stores)
    (hcls : className ≠ "")
    (hmiss : findCachedDoc className unit st.questions = none) :
    getCachedQuestion className unit provider none s3a st =
      (Except.error ServiceError.generationFailed, st, []) ∧
    ∃ r st2,
      getCachedQuestion className unit provider2 (some q) s3b st =
        (Except.ok r, st2, []) ∧
      r.cached = false ∧ r.answer = q := by
  constructor
  · simp [getCachedQuestion, hmiss, generateAndStoreQuestion,
      generateAPQuestion, hcls]
  · obtain ⟨a, st1, hgen, ha⟩ :=
      generateAPQuestion_ok className unit q s3b st hcls
    refine ⟨{ answer := a.answer, provider := a.provider, model := a.model,
              cached := false,
              questionId := QuestionId.mongoId
                (upsertDocList className unit a.answer st1.nextDocId
                  st1.questions).doc.docId },
            (upsertQuestionDoc className unit a.answer st1).2, ?_, rfl, ha⟩
    simp [getCachedQuestion, hmiss, generateAndStoreQuestion, hgen,
      upsertQuestionDoc]

/-- C7 witness at a concrete input. -/
theorem C7_generation_failure_leaves_absent_witness :
    ("AP Biology" : String) ≠ "" ∧
    findCachedDoc "AP Biology" "Unit 99" emptyStores.questions = none ∧
    (getCachedQuestion "AP Biology" "Unit 99" "openai" none true emptyStores =
      (Except.error ServiceError.generationFailed, emptyStores, []) ∧
    ∃ r st2,
      getCachedQuestion "AP Biology" "Unit 99" "openai" (some sampleQuestion)
          true emptyStores = (Except.ok r, st2, []) ∧
      r.cached = false ∧ r.answer = sampleQuestion) :=
  ⟨by decide, rfl,
   C7_generation_failure_leaves_absent "AP Biology" "Unit 99" "openai" "openai"
     true true sampleQuestion emptyStores (by decide) rfl⟩

/-- C8: two immediately successive fetches on a Populated key — the second
running on the state left by the first, with no background-refresh completion
in between (a hit leaves the stores untouched) — both succeed, and the second
is served from cache with the same answer and the same question id as the
first. -/
theorem C8_populated_idempotent (className unit p1 p2 : String)
    (g1 g2 : Option ParsedQuestion) (s3a s3b : Bool) (st : Stores)
    (d : QuestionDoc)
    (hhit : findCachedDoc className unit st.questions = some d) :
    ∃ r1 r2,
      (getCachedQuestion className unit p1 g1 s3a st).1 = Except.ok r1 ∧
      (getCachedQuestion className unit p2 g2 s3b
        (getCachedQuestion className unit p1 g1 s3a st).2.1).1 =
        Except.ok r2 ∧
      r2.answer = r1.answer ∧ r2.cached = true ∧
      r2.questionId = r1.questionId := by
  refine ⟨{ answer := docFields d, provider := "cache", model := "cached",
            cached := true, questionId := QuestionId.mongoId d.docId },
          { answer := docFields d, provider := "cache", model := "cached",
            cached := true, questionId := QuestionId.mongoId d.docId },
          ?_, ?_, rfl, rfl, rfl⟩
  · simp [getCachedQuestion, hhit]
  · simp [getCachedQuestion, hhit]

/-- The cache document and populated store used by concrete witnesses. -/
def demoDoc : QuestionDoc := mkDoc 0 "AP Biology" "Unit 1" sampleQuestion

/-- A store whose cache holds exactly the demo document. -/
def demoStores : Stores :=
  { s3 := [], nextUuid := 0, questions := [demoDoc], nextDocId := 1 }

/-- C8 witness at a concrete input. -/
theorem C8_populated_idempotent_witness :
    findCachedDoc "AP Biology" "Unit 1" demoStores.questions = some demoDoc ∧
    (∃ r1 r2,
      (getCachedQuestion "AP Biology" "Unit 1" "openai" none false
        demoStores).1 = Except.ok r1 ∧
      (getCachedQuestion "AP Biology" "Unit 1" "openai" none false
        (getCachedQuestion "AP Biology" "Unit 1" "openai" none false
          demoStores).2.1).1 = Except.ok r2 ∧
      r2.answer = r1.answer ∧ r2.cached = true ∧
      r2.questionId = r1.questionId) :=
  ⟨by decide,
   C8_populated_idempotent "AP Biology" "Unit 1" "openai" "openai" none none
     false false demoStores demoDoc (by decide)⟩

/-- Trace for the C2 counterexample: cold miss, generation succeeds, the S3
save fails, the cache write still happens. -/
def C2Acts : List Act :=
  [Act.fetchMiss "AP Biology" "Unit 1",
   Act.taskGen 0 (some sampleQuestion),
   Act.taskSave 0 false,
   Act.taskWrite 0]

/-- C2 counterexample: a reachable state in which the cache holds the
generated question while the Blob Store holds nothing — the blob write did
not happen before the cache update; it never happened at all, because the
failed save is swallowed and the pipeline proceeds to the cache write. -/
theorem C2_counterexample :
    (runActs C2Acts initState).map
        (fun s => (s.stores.questions.map docFields, s.stores.s3)) =
      some ([sampleQuestion], []) := by
  rfl

/-- C2 (amended): when the S3 auto-save succeeds the blob write does happen
before the cache update — at every reachable state, a pipeline task that has
completed its save with a blob id and has not yet performed its cache write
can already read the complete blob back from the Blob Store. When the save
fails the pipeline still updates the cache (see the counterexample trace);
and cache entries carry no blob reference at all (QuestionDoc has no S3 id
field), so no entry can dangle. -/
theorem C2_blob_write_precedes_cache_write (s : SysState) (hs : Reachable s) :
    ∀ t ∈ s.tasks, ∀ q n, t.phase = TaskPhase.saved q (some n) →
      getQuestionFromS3 (QuestionId.s3Id n) s.stores =
        Except.ok { payload := q, apClass := t.apClass,
                    unit := unitOrGeneral t.unit } := by
  intro t ht q n hph
  have h := (reachable_inv s hs).savedBlobs t ht q n hph
  simp [getQuestionFromS3, h]

/-- Trace reaching a state with a task that has saved its blob and not yet
written the cache. -/
def C2DemoActs : List Act :=
  [Act.fetchMiss "AP Biology" "Unit 1",
   Act.taskGen 0 (some sampleQuestion),
   Act.taskSave 0 true]

/-- The blob stored for sampleQuestion under the key AP Biology, Unit 1. -/
def sampleBlob : StoredQuestion :=
  { payload := sampleQuestion, apClass := "AP Biology", unit := "Unit 1" }

/-- The state reached by C2DemoActs. -/
def C2DemoState : SysState :=
  { stores :=
      { s3 := [(QuestionId.s3Id 0, sampleBlob)],
        nextUuid := 1, questions := [], nextDocId := 0 },
    tasks := [{ apClass := "AP Biology", unit := "Unit 1",
                phase := TaskPhase.saved sampleQuestion (some 0) }],
    genLog := [("AP Biology", "Unit 1", sampleQuestion)] }

/-- C2 amended witness at a concrete reachable state. -/
theorem C2_blob_write_precedes_cache_write_witness :
    Reachable C2DemoState ∧
    getQuestionFromS3 (QuestionId.s3Id 0) C2DemoState.stores =
      Except.ok { payload := sampleQuestion, apClass := "AP Biology",
                  unit := unitOrGeneral "Unit 1" } :=
  ⟨⟨C2DemoActs, by decide⟩,
   C2_blob_write_precedes_cache_write C2DemoState ⟨C2DemoActs, by decide⟩
     { apClass := "AP Biology", unit := "Unit 1",
       phase := TaskPhase.saved sampleQuestion (some 0) }
     (by simp [C2DemoState]) sampleQuestion 0 rfl⟩

/-- Trace for the C4 counterexample: populate the key, then two hits in a
row, neither background refresh having run yet. -/
def C4Acts : List Act :=
  [Act.fetchMiss "AP Biology" "Unit 1",
   Act.taskGen 0 (some sampleQuestion),
   Act.taskSave 0 true,
   Act.taskWrite 0,
   Act.fetchHit "AP Biology" "Unit 1",
   Act.fetchHit "AP Biology" "Unit 1"]

/-- C4 counterexample: two hits on the same Populated key each schedule a
background refresh — the second is scheduled although a refresh for the key
is already in flight, so two refreshes for one key are in flight at a
reachable state; there is no de-duplication. -/
theorem C4_counterexample :
    (runActs C4Acts initState).map (fun s => s.tasks) =
      some [{ apClass := "AP Biology", unit := "Unit 1",
              phase := TaskPhase.started },
            { apClass := "AP Biology", unit := "Unit 1",
              phase := TaskPhase.started }] := by
  rfl

/-- C4 (amended): a fetch on a Populated key returns the stored entry
immediately with servedFromCache=true and leaves the stores untouched, and it
schedules a background refresh unconditionally — appending a new in-flight
task whatever tasks (including refreshes for the same key) are already in
flight. -/
theorem C4_hit_schedules_unconditionally (s : SysState)
    (apClass unit provider : String) (g : Option ParsedQuestion) (sOk : Bool)
    (d : QuestionDoc)
    (hhit : findCachedDoc apClass unit s.stores.questions = some d) :
    applyAct (Act.fetchHit apClass unit) s =
      some { s with tasks := s.tasks ++
        [{ apClass := apClass, unit := unit, phase := TaskPhase.started }] } ∧
    (getCachedQuestion apClass unit provider g sOk s.stores).1 =
      Except.ok { answer := docFields d, provider := "cache",
                  model := "cached", cached := true,
                  questionId := QuestionId.mongoId d.docId } ∧
    (getCachedQuestion apClass unit provider g sOk s.stores).2.1 = s.stores := by
  refine ⟨?_, ?_, ?_⟩
  · simp [applyAct, hhit]
  · simp [getCachedQuestion, hhit]
  · simp [getCachedQuestion, hhit]

/-- System state for the C4 witness: one populated key, one refresh already
in flight for it. -/
def C4DemoState : SysState :=
  { stores := demoStores,
    tasks := [{ apClass := "AP Biology", unit := "Unit 1",
                phase := TaskPhase.started }],
    genLog := [("AP Biology", "Unit 1", sampleQuestion)] }

/-- C4 amended witness at a concrete input (a refresh for the key is already
in flight, and the hit schedules another one). -/
theorem C4_hit_schedules_unconditionally_witness :
    findCachedDoc "AP Biology" "Unit 1" C4DemoState.stores.questions =
      some demoDoc ∧
    (applyAct (Act.fetchHit "AP Biology" "Unit 1") C4DemoState =
      some { C4DemoState with tasks := C4DemoState.tasks ++
        [{ apClass := "AP Biology", unit := "Unit 1",
           phase := TaskPhase.started }] } ∧
    (getCachedQuestion "AP Biology" "Unit 1" "openai" none false
        C4DemoState.stores).1 =
      Except.ok { answer := docFields demoDoc, provider := "cache",
                  model := "cached", cached := true,
                  questionId := QuestionId.mongoId demoDoc.docId } ∧
    (getCachedQuestion "AP Biology" "Unit 1" "openai" none false
        C4DemoState.stores).2.1 = C4DemoState.stores) :=
  ⟨by decide,
   C4_hit_schedules_unconditionally C4DemoState "AP Biology" "Unit 1" "openai"
     none false demoDoc (by decide)⟩

/-- C9: at every reachable state the cache holds at most one document per
(apClass, unit) key, and every document present is one complete generated
question — its full field set equals a single question recorded in the
generation log, never a mix of two generations. This holds across all
interleavings the step system allows, including two concurrent refreshes of
the same key. -/
theorem C9_cache_entry_atomic (s : SysState) (hs : Reachable s) :
    KeysDistinct s.stores.questions ∧
    ∀ d ∈ s.stores.questions,
      (d.apClass, d.unit, docFields d) ∈ s.genLog := by
  have h := reachable_inv s hs
  exact ⟨h.keysDistinct, h.docsLogged⟩

/-- Trace reaching a populated state for the C9 witness. -/
def C9DemoActs : List Act :=
  [Act.fetchMiss "AP Biology" "Unit 1",
   Act.taskGen 0 (some sampleQuestion),
   Act.taskSave 0 true,
   Act.taskWrite 0]

/-- The state reached by C9DemoActs. -/
def C9DemoState : SysState :=
  { stores :=
      { s3 := [(QuestionId.s3Id 0, sampleBlob)],
        nextUuid := 1,
        questions := [mkDoc 0 "AP Biology" "Unit 1" sampleQuestion],
        nextDocId := 1 },
    tasks := [], genLog := [("AP Biology", "Unit 1", sampleQuestion)] }

/-- C9 witness at a concrete reachable state. -/
theorem C9_cache_entry_atomic_witness :
    Reachable C9DemoState ∧
    (KeysDistinct C9DemoState.stores.questions ∧
     ∀ d ∈ C9DemoState.stores.questions,
       (d.apClass, d.unit, docFields d) ∈ C9DemoState.genLog) :=
  ⟨⟨C9DemoActs, by decide⟩, C9_cache_entry_atomic C9DemoState ⟨C9DemoActs, by decide⟩⟩

end FreeAP
